import Mathlib

/-!
Verification of the provider-adapter layer of the `one-hub` gateway
(`controller/linuxdo.go` and the Claude provider file): the custom-parameter
merge engine, role and finish-reason normalization, request-URL resolution,
vendor-error decoding, and the OAuth fail-fast guards.

JSON object bodies (`map[string]interface{}` in Go) are shallowly embedded as
association lists `List (String × JValue)` with the well-formedness condition
that keys are distinct (which every Go map satisfies); lookups model map
indexing and `setKey` models map assignment.
-/

/-- A JSON value as decoded into a Go `interface{}`:
booleans, strings, numbers, arrays, nested objects, or null. -/
inductive JValue where
  | null : JValue
  | bool (b : Bool) : JValue
  | str (s : String) : JValue
  | num (n : Int) : JValue
  | arr (xs : List JValue) : JValue
  | obj (fields : List (String × JValue)) : JValue

/-- A Go `map[string]interface{}` body, embedded as an association list. -/
abbrev JObj := List (String × JValue)

/-- Map indexing `m[k]`: `some v` when the key is present, `none` otherwise. -/
def jlookup (m : JObj) (k : String) : Option JValue :=
  match m with
  | [] => none
  | (k', v) :: rest => if k' = k then some v else jlookup rest k

/-- Map assignment `m[k] = v`: replaces the binding when the key is present,
appends it otherwise. -/
def setKey (m : JObj) (k : String) (v : JValue) : JObj :=
  match m with
  | [] => [(k, v)]
  | (k', v') :: rest => if k' = k then (k, v) :: rest else (k', v') :: setKey rest k v

/-- The Go pattern `if raw, exists := m[k]; exists { if b, ok := raw.(bool); ok { flag = b } }`
with default `false`: used for the `overwrite` and `per_model` control keys. -/
def getBoolFlag (m : JObj) (k : String) : Bool :=
  match jlookup m k with
  | some (JValue.bool b) => b
  | _ => false

/-- The Go test `preAdd, exists := customParams["pre_add"]; exists && preAdd == true`:
true exactly when the key is present with the boolean value `true`. -/
def preAddEnabled (customParams : JObj) : Bool :=
  match jlookup customParams "pre_add" with
  | some (JValue.bool true) => true
  | _ => false

/-- The reserved control keys skipped by the merge loop:
`key == "stream" || key == "overwrite" || key == "per_model" || key == "pre_add"`. -/
def reservedKey (k : String) : Bool :=
  k == "stream" || k == "overwrite" || k == "per_model" || k == "pre_add"

/-- The active parameter set (`customParamsModel` in the source): the spec itself
unless `per_model` is enabled, in which case the request's `"model"` value, when
it is a string, is looked up in the spec — a nested object becomes the active
set, and an absent key or a non-object value yields the empty set. When the
`"model"` value is absent or not a string the Go type assertion fails and the
spec itself stays active. -/
def activeParams (requestMap customParams : JObj) : JObj :=
  if getBoolFlag customParams "per_model" then
    match jlookup requestMap "model" with
    | some (JValue.str modelValue) =>
      match jlookup customParams modelValue with
      | some (JValue.obj modelConfig) => modelConfig
      | some _ => []
      | none => []
    | _ => customParams
  else customParams

/-- The `for key, value := range customParamsModel` loop of `mergeCustomParams`:
reserved keys are skipped; in overwrite mode every other key is assigned
unconditionally; otherwise only keys absent from the body are added. -/
def mergeLoop (shouldOverwrite : Bool) (requestMap : JObj) (params : JObj) : JObj :=
  match params with
  | [] => requestMap
  | (key, value) :: rest =>
    if reservedKey key then
      mergeLoop shouldOverwrite requestMap rest
    else if shouldOverwrite then
      mergeLoop shouldOverwrite (setKey requestMap key value) rest
    else
      match jlookup requestMap key with
      | some _ => mergeLoop shouldOverwrite requestMap rest
      | none => mergeLoop shouldOverwrite (setKey requestMap key value) rest

/-- `mergeCustomParams` from the Claude provider: reads the `overwrite` flag,
returns the body unchanged when `pre_add == true`, resolves the active
parameter set (per-model or whole spec) and runs the merge loop. -/
def mergeCustomParams (requestMap customParams : JObj) : JObj :=
  let shouldOverwrite := getBoolFlag customParams "overwrite"
  if preAddEnabled customParams then
    requestMap
  else
    mergeLoop shouldOverwrite requestMap (activeParams requestMap customParams)

/-- The spec used by the C1 counterexample: `overwrite` and `pre_add` both true,
plus one ordinary parameter `"foo"`. -/
def overwritePreAddSpec : JObj :=
  [("overwrite", JValue.bool true), ("pre_add", JValue.bool true), ("foo", JValue.num 1)]

/-- Modelled from the spec: the canonical finish-reason constant
`types.FinishReasonStop` (the `types` package is outside the provided sources);
§8 fixes its value through the mapping table. -/
def FinishReasonStop : String := "stop"

/-- Modelled from the spec: the canonical finish-reason constant
`types.FinishReasonLength`. -/
def FinishReasonLength : String := "length"

/-- Modelled from the spec: the canonical finish-reason constant
`types.FinishReasonToolCalls`. -/
def FinishReasonToolCalls : String := "tool_calls"

/-- Modelled from the spec: the canonical finish-reason constant
`types.FinishReasonContentFilter`. -/
def FinishReasonContentFilter : String := "content_filter"

/-- `stopReasonClaude2OpenAI`: the vendor → canonical finish-reason switch,
with the default case passing the vendor reason through unchanged. -/
def stopReasonClaude2OpenAI (reason : String) : String :=
  if reason = "end_turn" ∨ reason = "stop_sequence" then FinishReasonStop
  else if reason = "max_tokens" then FinishReasonLength
  else if reason = "tool_use" then FinishReasonToolCalls
  else if reason = "refusal" then FinishReasonContentFilter
  else reason

/-- Modelled from the spec: the canonical role constant
`types.ChatMessageRoleUser`; §8's role table fixes its value. -/
def ChatMessageRoleUser : String := "user"

/-- Modelled from the spec: the canonical role constant
`types.ChatMessageRoleTool`. -/
def ChatMessageRoleTool : String := "tool"

/-- Modelled from the spec: the canonical role constant
`types.ChatMessageRoleFunction`. -/
def ChatMessageRoleFunction : String := "function"

/-- Modelled from the spec: the canonical role constant
`types.ChatMessageRoleAssistant`. -/
def ChatMessageRoleAssistant : String := "assistant"

/-- `convertRole`: the canonical → vendor role switch; `user`, `tool` and
`function` collapse to `user`, everything else to `assistant`. -/
def convertRole (role : String) : String :=
  if role = ChatMessageRoleUser ∨ role = ChatMessageRoleTool
      ∨ role = ChatMessageRoleFunction then
    ChatMessageRoleUser
  else
    ChatMessageRoleAssistant

/-- Go `strings.HasSuffix s t`, on the character-list view of strings. -/
def hasSuffix (s t : String) : Bool :=
  t.data.isSuffixOf s.data

/-- Go `strings.HasPrefix s t`, on the character-list view of strings. -/
def hasLeading (s t : String) : Bool :=
  t.data.isPrefixOf s.data

/-- Go `strings.TrimSuffix s t`: removes one trailing occurrence of `t` when
`s` ends with it, otherwise returns `s` unchanged. -/
def trimSuffix (s t : String) : String :=
  if hasSuffix s t then String.mk (s.data.take (s.data.length - t.data.length)) else s

/-- Go `strings.TrimPrefix s t` (named to avoid clashing with Lean keywords):
removes one leading occurrence of `t` when `s` starts with it, otherwise
returns `s` unchanged. -/
def trimLeading (s t : String) : String :=
  if hasLeading s t then String.mk (s.data.drop t.data.length) else s

/-- `GetFullRequestURL` of the Claude provider: trims one trailing `/` from the
resolved base URL (`p.GetBaseURL()` is resolved by the external base provider
and enters here as an argument), strips a leading `/v1` from the endpoint path
when the base URL is a Cloudflare AI-gateway passthrough, and concatenates. -/
def GetFullRequestURL (baseURLResolved requestURL : String) : String :=
  let baseURL := trimSuffix baseURLResolved "/"
  let requestURL :=
    if hasLeading baseURL "https://gateway.ai.cloudflare.com" then
      trimLeading requestURL "/v1"
    else
      requestURL
  baseURL ++ requestURL

/-- Modelled from the spec: the inner error object of the Claude error envelope
(the `ClaudeError` type of the provider package is outside the provided
sources; the fields used by `errorHandle` are `ErrorInfo.Message` and
`ErrorInfo.Type`). -/
structure ClaudeErrorInfo where
  message : String
  type : String

/-- Modelled from the spec: the Claude error envelope, with the top-level
`Type` discriminant ("is this actually an error" marker) and the nested error
object. -/
structure ClaudeError where
  type : String
  errorInfo : ClaudeErrorInfo

/-- Modelled from the spec: the normalized three-field error shape
`types.OpenAIError` `{message, type, code}`. -/
structure OpenAIError where
  message : String
  type : String
  code : String
deriving DecidableEq

/-- `errorHandle` of the Claude provider: a nil envelope or an empty top-level
`Type` discriminant yields no normalized error; otherwise the normalized error
takes its message and type from the inner object and its code from the
top-level discriminant. -/
def errorHandle (claudeError : Option ClaudeError) : Option OpenAIError :=
  match claudeError with
  | none => none
  | some ce =>
    if ce.type = "" then
      none
    else
      some { message := ce.errorInfo.message, type := ce.errorInfo.type, code := ce.type }

/-- `RequestErrorHandle` of the Claude provider: JSON decoding of the response
body is I/O and enters the model as its result — `none` when decoding failed,
`some envelope` when it succeeded; a failed decode yields no normalized error,
otherwise `errorHandle` decides. -/
def RequestErrorHandle (decoded : Option ClaudeError) : Option OpenAIError :=
  match decoded with
  | none => none
  | some claudeError => errorHandle (some claudeError)

/-- `LinuxDoOAuthResponse`: the decoded token-endpoint payload. -/
structure LinuxDoOAuthResponse where
  accessToken : String
  tokenType : String
  scope : String

/-- `LinuxDoUser`: the decoded user-endpoint payload. -/
structure LinuxDoUser where
  id : Int
  username : String
  name : String
  avatarTemplate : String
  active : Bool
  trustLevel : Int
deriving DecidableEq

/-- The two outbound HTTP requests `getLinuxDoUserInfoByCode` can issue, in the
order it issues them. -/
inductive NetCall where
  | tokenExchange : NetCall
  | userFetch : NetCall
deriving DecidableEq

/-- What one outbound HTTP call came back as, from the function's point of
view: a transport failure (`client.Do` error), or a status code together with
the decode result of the body (`none` = JSON decode error). -/
inductive HttpResult (α : Type) where
  | connError : HttpResult α
  | reply (status : Nat) (decoded : Option α) : HttpResult α

/-- `getLinuxDoUserInfoByCode`: validates the code and the client configuration
before any network traffic, then exchanges the code for a token and fetches the
user, validating each reply. Network replies enter the model as the two
`HttpResult` arguments; the second component of the result records which
outbound calls were actually issued. The Go error value returned on a JSON
decode failure is opaque and modelled by a fixed message; the impossible
`http.NewRequest` error on a constant URL is omitted. -/
def getLinuxDoUserInfoByCode (clientId clientSecret code : String)
    (tokenReply : HttpResult LinuxDoOAuthResponse)
    (userReply : HttpResult LinuxDoUser) :
    Except String LinuxDoUser × List NetCall :=
  if code = "" then
    (Except.error "无效的参数", [])
  else if clientId = "" ∨ clientSecret = "" then
    (Except.error "LinuxDo OAuth 配置不完整", [])
  else
    match tokenReply with
    | HttpResult.connError =>
      (Except.error "无法连接至 LinuxDo 服务器，请稍后重试！", [NetCall.tokenExchange])
    | HttpResult.reply status decoded =>
      if status ≠ 200 then
        (Except.error "无法连接至 LinuxDo 服务器，请稍后重试！", [NetCall.tokenExchange])
      else
        match decoded with
        | none =>
          (Except.error "JSON 解析失败", [NetCall.tokenExchange])
        | some oauthResponse =>
          if oauthResponse.accessToken = "" then
            (Except.error "返回值非法，access_token 为空，请稍后重试！", [NetCall.tokenExchange])
          else
            match userReply with
            | HttpResult.connError =>
              (Except.error "无法连接至 LinuxDo 服务器，请稍后重试！",
               [NetCall.tokenExchange, NetCall.userFetch])
            | HttpResult.reply status2 decoded2 =>
              if status2 ≠ 200 then
                (Except.error "无法连接至 LinuxDo 服务器，请稍后重试！",
                 [NetCall.tokenExchange, NetCall.userFetch])
              else
                match decoded2 with
                | none =>
                  (Except.error "JSON 解析失败", [NetCall.tokenExchange, NetCall.userFetch])
                | some linuxDoUser =>
                  if linuxDoUser.id = 0 then
                    (Except.error "返回值非法，用户 id 字段为空，请稍后重试！",
                     [NetCall.tokenExchange, NetCall.userFetch])
                  else
                    (Except.ok linuxDoUser, [NetCall.tokenExchange, NetCall.userFetch])

/-- Modelled from the spec: the `config.RoleCommonUser` constant (the `config`
package is outside the provided sources); its concrete value is irrelevant to
the properties proved here. -/
def RoleCommonUser : Int := 1

/-- Modelled from the spec: the `config.UserStatusEnabled` constant; its
concrete value is irrelevant to the properties proved here. -/
def UserStatusEnabled : Int := 1

/-- The fields of `model.User` that `LinuxDoOAuth` reads or writes. -/
structure User where
  id : Int
  username : String
  displayName : String
  linuxDoId : String
  role : Int
  status : Int
  inviterId : Int
  avatarUrl : String
deriving DecidableEq

/-- `getUserByLinuxDo`: when the LinuxDo id is already taken, look the user up
by the `linuxdo_id` field (database oracles enter as arguments); otherwise the
user stays nil. -/
def getUserByLinuxDo (isTaken : Bool) (findResult : Except String User) :
    Except String (Option User) :=
  if isTaken then
    match findResult with
    | Except.error e => Except.error e
    | Except.ok u => Except.ok (some u)
  else
    Except.ok none

/-- The collaborator calls `LinuxDoOAuth` can perform, in order: outbound HTTP
calls of the user-info fetch, the database user lookup, the aff-code lookup,
the user insertion, the final `setupLogin`, and delegation to `LinuxDoBind`. -/
inductive OAuthEffect where
  | net (call : NetCall) : OAuthEffect
  | userLookup : OAuthEffect
  | affLookup : OAuthEffect
  | userCreate : OAuthEffect
  | login : OAuthEffect
  | bindDelegate : OAuthEffect
deriving DecidableEq

/-- How `LinuxDoOAuth` ends: a JSON reply with an HTTP status, a success flag
and a message; a successful `setupLogin` carrying the logged-in user; or
delegation to the bind flow. -/
inductive OAuthOutcome where
  | json (status : Nat) (success : Bool) (message : String) : OAuthOutcome
  | loginUser (u : User) : OAuthOutcome
  | bindFlow : OAuthOutcome
deriving DecidableEq

/-- Everything `LinuxDoOAuth` reads: query parameters, session values, the
feature flags, and oracles for the collaborators it may call (OAuth client
configuration, the two network replies, the database lookups, and the insert
result, `some e` being a failed insert). -/
structure OAuthEnv where
  queryState : String
  queryCode : String
  queryAff : String
  sessionOauthState : Option String
  sessionUsername : Option String
  linuxDoOAuthEnabled : Bool
  registerEnabled : Bool
  clientId : String
  clientSecret : String
  tokenReply : HttpResult LinuxDoOAuthResponse
  userReply : HttpResult LinuxDoUser
  linuxDoIdTaken : Bool
  findUserReply : Except String User
  affCodeUserId : Int
  insertReply : Option String

/-- `LinuxDoOAuth`: the CSRF state guard (empty state, missing session state,
or mismatch → HTTP 403), the bind delegation for logged-in sessions, the
feature-flag gate, then the user-info fetch, the user lookup, registration of a
new user (activity and trust-level conditions, register flag, aff-code inviter,
insert) or adoption of the existing one, the ban check, and `setupLogin`. The
second component records the collaborator calls performed, in order. -/
def LinuxDoOAuth (env : OAuthEnv) : OAuthOutcome × List OAuthEffect :=
  if env.queryState = "" then
    (OAuthOutcome.json 403 false "state is empty or not same", [])
  else
    match env.sessionOauthState with
    | none => (OAuthOutcome.json 403 false "state is empty or not same", [])
    | some savedState =>
      if env.queryState ≠ savedState then
        (OAuthOutcome.json 403 false "state is empty or not same", [])
      else if env.sessionUsername.isSome then
        (OAuthOutcome.bindFlow, [OAuthEffect.bindDelegate])
      else if env.linuxDoOAuthEnabled = false then
        (OAuthOutcome.json 200 false "管理员未开启通过 LinuxDo 登录以及注册", [])
      else
        let fetched := getLinuxDoUserInfoByCode env.clientId env.clientSecret
          env.queryCode env.tokenReply env.userReply
        let netEffects := fetched.2.map OAuthEffect.net
        match fetched.1 with
        | Except.error e => (OAuthOutcome.json 200 false e, netEffects)
        | Except.ok linuxDoUser =>
          match getUserByLinuxDo env.linuxDoIdTaken env.findUserReply with
          | Except.error e =>
            (OAuthOutcome.json 200 false e, netEffects ++ [OAuthEffect.userLookup])
          | Except.ok userOpt =>
            let linuxDoId := toString linuxDoUser.id
            match userOpt with
            | none =>
              if linuxDoUser.active = false ∨ linuxDoUser.trustLevel < 1 then
                (OAuthOutcome.json 200 false
                  "LinuxDo 账户未满足注册条件（active=true 且 trust_level>=1）",
                 netEffects ++ [OAuthEffect.userLookup])
              else if env.registerEnabled = false then
                (OAuthOutcome.json 200 false "管理员关闭了新用户注册",
                 netEffects ++ [OAuthEffect.userLookup])
              else
                let inviterId := if env.queryAff ≠ "" then env.affCodeUserId else 0
                let affEffects : List OAuthEffect :=
                  if env.queryAff ≠ "" then [OAuthEffect.affLookup] else []
                let username := "linuxdo_" ++ linuxDoId
                let newUser : User :=
                  { id := 0
                    username := username
                    displayName := if linuxDoUser.name ≠ "" then linuxDoUser.name
                                   else username
                    linuxDoId := linuxDoId
                    role := RoleCommonUser
                    status := UserStatusEnabled
                    inviterId := if inviterId > 0 then inviterId else 0
                    avatarUrl := "" }
                match env.insertReply with
                | some e =>
                  (OAuthOutcome.json 200 false e,
                   netEffects ++ [OAuthEffect.userLookup] ++ affEffects
                     ++ [OAuthEffect.userCreate])
                | none =>
                  if newUser.status ≠ UserStatusEnabled then
                    (OAuthOutcome.json 200 false "用户已被封禁",
                     netEffects ++ [OAuthEffect.userLookup] ++ affEffects
                       ++ [OAuthEffect.userCreate])
                  else
                    (OAuthOutcome.loginUser newUser,
                     netEffects ++ [OAuthEffect.userLookup] ++ affEffects
                       ++ [OAuthEffect.userCreate, OAuthEffect.login])
            | some existingUser =>
              let adopted := { existingUser with linuxDoId := linuxDoId }
              if adopted.status ≠ UserStatusEnabled then
                (OAuthOutcome.json 200 false "用户已被封禁",
                 netEffects ++ [OAuthEffect.userLookup])
              else
                (OAuthOutcome.loginUser adopted,
                 netEffects ++ [OAuthEffect.userLookup, OAuthEffect.login])

theorem jlookup_setKey_self (m : JObj) (k : String) (v : JValue) :
    jlookup (setKey m k v) k = some v := by
  induction m with
  | nil => simp [setKey, jlookup]
  | cons hd tl ih =>
    obtain ⟨k0, v0⟩ := hd
    by_cases h : k0 = k
    · simp [setKey, h, jlookup]
    · simp [setKey, h, jlookup, ih]

theorem jlookup_setKey_ne (m : JObj) (k' k : String) (v : JValue) (h : k' ≠ k) :
    jlookup (setKey m k' v) k = jlookup m k := by
  induction m with
  | nil => simp [setKey, jlookup, h]
  | cons hd tl ih =>
    obtain ⟨k0, v0⟩ := hd
    by_cases h0 : k0 = k'
    · subst h0
      simp [setKey, jlookup, h]
    · by_cases hk : k0 = k
      · simp [setKey, h0, jlookup, hk, Ne.symm h]
      · simp [setKey, h0, jlookup, hk, ih]

theorem mergeLoop_not_mem (s : Bool) (P : JObj) (k : String)
    (h : ∀ p ∈ P, p.1 ≠ k) (B : JObj) :
    jlookup (mergeLoop s B P) k = jlookup B k := by
  induction P generalizing B with
  | nil => rfl
  | cons hd tl ih =>
    obtain ⟨k0, v0⟩ := hd
    have hk0 : k0 ≠ k := h (k0, v0) (List.mem_cons_self _ _)
    have htl : ∀ p ∈ tl, p.1 ≠ k := fun p hp => h p (List.mem_cons_of_mem _ hp)
    simp only [mergeLoop]
    cases hres : reservedKey k0
    · simp only [Bool.false_eq_true, if_false]
      cases s
      · simp only [Bool.false_eq_true, if_false]
        cases hl : jlookup B k0
        · rw [ih htl, jlookup_setKey_ne _ _ _ _ hk0]
        · exact ih htl B
      · simp only [if_true]
        rw [ih htl, jlookup_setKey_ne _ _ _ _ hk0]
    · simp only [if_true]
      exact ih htl B

theorem mergeLoop_preserves (P : JObj) (k : String) (v : JValue) (B : JObj)
    (h : jlookup B k = some v) :
    jlookup (mergeLoop false B P) k = some v := by
  induction P generalizing B with
  | nil => exact h
  | cons hd tl ih =>
    obtain ⟨k0, v0⟩ := hd
    simp only [mergeLoop, Bool.false_eq_true, if_false]
    cases hres : reservedKey k0
    · simp only [Bool.false_eq_true, if_false]
      cases hl : jlookup B k0
      · have hk0 : k0 ≠ k := by
          intro he
          subst he
          rw [h] at hl
          cases hl
        exact ih _ (by rw [jlookup_setKey_ne _ _ _ _ hk0]; exact h)
      · exact ih _ h
    · simp only [if_true]
      exact ih _ h

theorem mergeLoop_overwrite (P : JObj) (k : String) (v : JValue)
    (hres : reservedKey k = false)
    (hnd : (P.map Prod.fst).Nodup)
    (hl : jlookup P k = some v) (B : JObj) :
    jlookup (mergeLoop true B P) k = some v := by
  induction P generalizing B with
  | nil => cases hl
  | cons hd tl ih =>
    obtain ⟨k0, v0⟩ := hd
    have hnd' : (tl.map Prod.fst).Nodup := (List.nodup_cons.mp (by simpa using hnd)).2
    by_cases hk : k0 = k
    · subst hk
      have hv : v0 = v := by simpa [jlookup] using hl
      subst hv
      have hmem : ∀ p ∈ tl, p.1 ≠ k0 := by
        intro p hp he
        have hnot : k0 ∉ tl.map Prod.fst := (List.nodup_cons.mp (by simpa using hnd)).1
        exact hnot (by rw [← he]; exact List.mem_map_of_mem _ hp)
      simp only [mergeLoop, hres, Bool.false_eq_true, if_false, if_true]
      rw [mergeLoop_not_mem true tl k0 hmem (setKey B k0 v0), jlookup_setKey_self]
    · have hl' : jlookup tl k = some v := by simpa [jlookup, hk] using hl
      simp only [mergeLoop]
      cases hres0 : reservedKey k0
      · simp only [Bool.false_eq_true, if_false, if_true]
        exact ih hnd' hl' (setKey B k0 v0)
      · simp only [if_true]
        exact ih hnd' hl' B

theorem mergeLoop_reserved (s : Bool) (P : JObj) (r : String)
    (hr : reservedKey r = true) (B : JObj) :
    jlookup (mergeLoop s B P) r = jlookup B r := by
  induction P generalizing B with
  | nil => rfl
  | cons hd tl ih =>
    obtain ⟨k0, v0⟩ := hd
    simp only [mergeLoop]
    cases hres : reservedKey k0
    · have hk0 : k0 ≠ r := by
        intro he
        rw [he, hr] at hres
        cases hres
      simp only [Bool.false_eq_true, if_false]
      cases s
      · simp only [Bool.false_eq_true, if_false]
        cases hl : jlookup B k0
        · rw [ih (setKey B k0 v0), jlookup_setKey_ne _ _ _ _ hk0]
        · exact ih B
      · simp only [if_true]
        rw [ih (setKey B k0 v0), jlookup_setKey_ne _ _ _ _ hk0]
    · simp only [if_true]
      exact ih B

/-- C1 counterexample: the claim as stated fails when `pre_add` is also true.
Here `overwrite` is true and `"foo"` is a non-reserved key of the active
parameter set with value `1`, yet the merged body does not carry `"foo"` at all,
because the `pre_add` early return skips the whole merge. -/
theorem mergeCustomParams_overwrite_claim_cex :
    getBoolFlag overwritePreAddSpec "overwrite" = true
    ∧ reservedKey "foo" = false
    ∧ jlookup (activeParams [] overwritePreAddSpec) "foo" = some (JValue.num 1)
    ∧ jlookup (mergeCustomParams [] overwritePreAddSpec) "foo" ≠ some (JValue.num 1) := by
  refine ⟨rfl, rfl, rfl, ?_⟩
  intro h
  have hnone : jlookup (mergeCustomParams [] overwritePreAddSpec) "foo" = none := rfl
  rw [hnone] at h
  cases h

/-- C1 (amended): for every non-reserved key `k`, when `overwrite` is true and
`pre_add` is not the boolean true (and the active set, a Go map, has distinct
keys), the merged body carries the active set's value for `k`; when `overwrite`
is false or absent, a value already present in the body for `k` survives the
merge unchanged. -/
theorem mergeCustomParams_precedence (B S : JObj) (k : String)
    (hres : reservedKey k = false) :
    (getBoolFlag S "overwrite" = true → preAddEnabled S = false →
      ((activeParams B S).map Prod.fst).Nodup →
      ∀ v, jlookup (activeParams B S) k = some v →
        jlookup (mergeCustomParams B S) k = some v)
    ∧ (getBoolFlag S "overwrite" = false →
      ∀ v, jlookup B k = some v →
        jlookup (mergeCustomParams B S) k = some v) := by
  constructor
  · intro hov hpre hnd v hl
    unfold mergeCustomParams
    simp only [hpre, Bool.false_eq_true, if_false, hov]
    exact mergeLoop_overwrite _ _ _ hres hnd hl B
  · intro hov v hl
    unfold mergeCustomParams
    cases hpre : preAddEnabled S
    · simp only [Bool.false_eq_true, if_false, hov]
      exact mergeLoop_preserves _ _ _ _ hl
    · simp only [if_true]
      exact hl

/-- C1 witness: both branches of the amended claim at concrete inputs.
With `overwrite` true, `"b"` is copied from the spec; with `overwrite` absent,
the body's own `"a"` survives. -/
theorem mergeCustomParams_precedence_witness :
    jlookup (mergeCustomParams [("a", JValue.num 1)]
      [("overwrite", JValue.bool true), ("b", JValue.num 2)]) "b" = some (JValue.num 2)
    ∧ jlookup (mergeCustomParams [("a", JValue.num 1)]
      [("b", JValue.num 2), ("a", JValue.num 9)]) "a" = some (JValue.num 1) :=
  ⟨(mergeCustomParams_precedence [("a", JValue.num 1)]
      [("overwrite", JValue.bool true), ("b", JValue.num 2)] "b" rfl).1
      rfl rfl (by simp [activeParams, getBoolFlag, jlookup]) (JValue.num 2) rfl,
   (mergeCustomParams_precedence [("a", JValue.num 1)]
      [("b", JValue.num 2), ("a", JValue.num 9)] "a" rfl).2
      rfl (JValue.num 1) rfl⟩

/-- C2: with `per_model` true and the body's `"model"` a string that has no
object-valued entry in the spec (absent key, or a non-map value), the merge
returns the body exactly: no key is added. -/
theorem mergeCustomParams_per_model_miss (B S : JObj) (m : String)
    (hpm : getBoolFlag S "per_model" = true)
    (hmodel : jlookup B "model" = some (JValue.str m))
    (hmiss : ∀ fields, jlookup S m ≠ some (JValue.obj fields)) :
    mergeCustomParams B S = B := by
  have hactive : activeParams B S = [] := by
    unfold activeParams
    simp only [hpm, if_true, hmodel]
    cases hsm : jlookup S m with
    | none => rfl
    | some v =>
      cases v with
      | obj fields => exact absurd hsm (hmiss fields)
      | null => rfl
      | bool b => rfl
      | str s => rfl
      | num n => rfl
      | arr xs => rfl
  unfold mergeCustomParams
  cases hpre : preAddEnabled S
  · simp only [Bool.false_eq_true, if_false, hactive]
    rfl
  · simp only [if_true]

/-- C2 witness: a per-model spec with no entry for the request's model `"m"`
leaves the body untouched. -/
theorem mergeCustomParams_per_model_miss_witness :
    mergeCustomParams [("model", JValue.str "m")]
      [("per_model", JValue.bool true), ("x", JValue.num 1)]
    = [("model", JValue.str "m")] :=
  mergeCustomParams_per_model_miss [("model", JValue.str "m")]
    [("per_model", JValue.bool true), ("x", JValue.num 1)] "m" rfl rfl
    (fun _ h => Option.noConfusion h)

/-- C3: when the spec carries `pre_add` with the boolean value true, the merge
is a no-op and returns the body itself. -/
theorem mergeCustomParams_pre_add_noop (B S : JObj)
    (h : jlookup S "pre_add" = some (JValue.bool true)) :
    mergeCustomParams B S = B := by
  have hpre : preAddEnabled S = true := by
    unfold preAddEnabled
    rw [h]
  unfold mergeCustomParams
  simp only [hpre, if_true]

/-- C3 witness: a `pre_add` spec leaves a concrete body exactly as it was. -/
theorem mergeCustomParams_pre_add_noop_witness :
    mergeCustomParams [("a", JValue.num 1)]
      [("pre_add", JValue.bool true), ("b", JValue.num 3)]
    = [("a", JValue.num 1)] :=
  mergeCustomParams_pre_add_noop [("a", JValue.num 1)]
    [("pre_add", JValue.bool true), ("b", JValue.num 3)] rfl

/-- C4: the four reserved control keys are never copied into the body: for each
reserved key, the merged body's binding for it (present or absent) is exactly
the original body's, for every body and spec. -/
theorem mergeCustomParams_reserved_frame (B S : JObj) (r : String)
    (hr : reservedKey r = true) :
    jlookup (mergeCustomParams B S) r = jlookup B r := by
  unfold mergeCustomParams
  cases hpre : preAddEnabled S
  · simp only [Bool.false_eq_true, if_false]
    exact mergeLoop_reserved _ _ _ hr B
  · simp only [if_true]

/-- C4 witness: a spec that sets `"stream"` does not overwrite the body's own
`"stream"` value. -/
theorem mergeCustomParams_reserved_frame_witness :
    jlookup (mergeCustomParams [("stream", JValue.bool true)]
      [("overwrite", JValue.bool true), ("stream", JValue.bool false)]) "stream"
    = jlookup [("stream", JValue.bool true)] "stream" :=
  mergeCustomParams_reserved_frame [("stream", JValue.bool true)]
    [("overwrite", JValue.bool true), ("stream", JValue.bool false)] "stream" rfl

/-- C5: the finish-reason map is total: the four recognized vendor reasons (and
`stop_sequence`) map to their canonical names, and any other reason passes
through unchanged. -/
theorem stopReasonClaude2OpenAI_table (r : String)
    (h : r ∉ (["end_turn", "stop_sequence", "max_tokens", "tool_use", "refusal"] : List String)) :
    stopReasonClaude2OpenAI "end_turn" = "stop"
    ∧ stopReasonClaude2OpenAI "stop_sequence" = "stop"
    ∧ stopReasonClaude2OpenAI "max_tokens" = "length"
    ∧ stopReasonClaude2OpenAI "tool_use" = "tool_calls"
    ∧ stopReasonClaude2OpenAI "refusal" = "content_filter"
    ∧ stopReasonClaude2OpenAI r = r := by
  refine ⟨rfl, rfl, rfl, rfl, rfl, ?_⟩
  simp only [List.mem_cons, List.not_mem_nil, or_false, not_or] at h
  obtain ⟨h1, h2, h3, h4, h5⟩ := h
  simp [stopReasonClaude2OpenAI, h1, h2, h3, h4, h5]

/-- C5 witness: the table at the unknown vendor reason of §8. -/
theorem stopReasonClaude2OpenAI_table_witness :
    stopReasonClaude2OpenAI "end_turn" = "stop"
    ∧ stopReasonClaude2OpenAI "stop_sequence" = "stop"
    ∧ stopReasonClaude2OpenAI "max_tokens" = "length"
    ∧ stopReasonClaude2OpenAI "tool_use" = "tool_calls"
    ∧ stopReasonClaude2OpenAI "refusal" = "content_filter"
    ∧ stopReasonClaude2OpenAI "unknown_vendor_reason" = "unknown_vendor_reason" :=
  stopReasonClaude2OpenAI_table "unknown_vendor_reason" (by decide)

/-- C6: the role map is total: `user`, `tool` and `function` map to `user` and
every other canonical role maps to `assistant`. -/
theorem convertRole_table (r : String)
    (h : r ∉ (["user", "tool", "function"] : List String)) :
    convertRole "user" = "user"
    ∧ convertRole "tool" = "user"
    ∧ convertRole "function" = "user"
    ∧ convertRole r = "assistant" := by
  refine ⟨rfl, rfl, rfl, ?_⟩
  simp only [List.mem_cons, List.not_mem_nil, or_false, not_or] at h
  obtain ⟨h1, h2, h3⟩ := h
  simp [convertRole, ChatMessageRoleUser, ChatMessageRoleTool, ChatMessageRoleFunction,
    ChatMessageRoleAssistant, h1, h2, h3]

/-- C6 witness: `assistant` and `system` both land on `assistant`; the three
user-like roles land on `user`. -/
theorem convertRole_table_witness :
    (convertRole "user" = "user"
      ∧ convertRole "tool" = "user"
      ∧ convertRole "function" = "user"
      ∧ convertRole "assistant" = "assistant")
    ∧ convertRole "system" = "assistant" :=
  ⟨convertRole_table "assistant" (by decide),
   (convertRole_table "system" (by decide)).2.2.2⟩

/-- C7: URL resolution trims one trailing slash from the base and concatenates
the endpoint path, stripping the path's leading `/v1` exactly for
Cloudflare-gateway bases; in particular the two worked examples of §8 hold. -/
theorem GetFullRequestURL_resolution :
    (∀ path, GetFullRequestURL "https://api.example.com/" path
      = "https://api.example.com" ++ path)
    ∧ (∀ path, GetFullRequestURL "https://gateway.ai.cloudflare.com/x/y" path
      = "https://gateway.ai.cloudflare.com/x/y" ++ trimLeading path "/v1")
    ∧ GetFullRequestURL "https://api.example.com/" "/v1/messages"
      = "https://api.example.com/v1/messages"
    ∧ GetFullRequestURL "https://gateway.ai.cloudflare.com/x/y" "/v1/messages"
      = "https://gateway.ai.cloudflare.com/x/y/messages" := by
  have h1 : trimSuffix "https://api.example.com/" "/" = "https://api.example.com" := by decide
  have h2 : trimSuffix "https://gateway.ai.cloudflare.com/x/y" "/"
      = "https://gateway.ai.cloudflare.com/x/y" := by decide
  have h3 : hasLeading "https://api.example.com" "https://gateway.ai.cloudflare.com"
      = false := by decide
  have h4 : hasLeading "https://gateway.ai.cloudflare.com/x/y"
      "https://gateway.ai.cloudflare.com" = true := by decide
  refine ⟨?_, ?_, ?_, ?_⟩
  · intro path
    simp only [GetFullRequestURL, h1, h3, Bool.false_eq_true, if_false]
  · intro path
    simp only [GetFullRequestURL, h2, h4, if_true]
  · simp only [GetFullRequestURL, h1, h3, Bool.false_eq_true, if_false]
    decide
  · simp only [GetFullRequestURL, h2, h4, if_true]
    decide

/-- C8: the error-decode hook returns no normalized error on a decode failure
or an empty top-level type discriminant, and otherwise returns the normalized
error built from the inner message, the inner type and the top-level type. -/
theorem RequestErrorHandle_normalization :
    RequestErrorHandle none = none
    ∧ (∀ ce : ClaudeError, ce.type = "" → RequestErrorHandle (some ce) = none)
    ∧ (∀ ce : ClaudeError, ce.type ≠ "" →
        RequestErrorHandle (some ce)
        = some { message := ce.errorInfo.message, type := ce.errorInfo.type,
                 code := ce.type }) := by
  refine ⟨rfl, ?_, ?_⟩
  · intro ce h
    simp [RequestErrorHandle, errorHandle, h]
  · intro ce h
    simp [RequestErrorHandle, errorHandle, h]

/-- C8 witness: the §8 authentication-error scenario — the envelope with
top-level type `authentication_error` normalizes with that value as `code`, and
an empty discriminant yields nothing. -/
theorem RequestErrorHandle_normalization_witness :
    RequestErrorHandle
      (some { type := "authentication_error",
              errorInfo := { message := "invalid x-api-key",
                             type := "invalid_request_error" } })
    = some { message := "invalid x-api-key", type := "invalid_request_error",
             code := "authentication_error" }
    ∧ RequestErrorHandle
      (some { type := "", errorInfo := { message := "m", type := "t" } }) = none :=
  ⟨RequestErrorHandle_normalization.2.2
      { type := "authentication_error",
        errorInfo := { message := "invalid x-api-key",
                       type := "invalid_request_error" } }
      (by decide),
   RequestErrorHandle_normalization.2.1
      { type := "", errorInfo := { message := "m", type := "t" } } rfl⟩

/-- C9: with an empty authorization code, or an empty configured client id or
client secret, `getLinuxDoUserInfoByCode` returns an error and the list of
outbound HTTP calls issued is empty, whatever the network would have replied. -/
theorem getLinuxDoUserInfoByCode_failfast (clientId clientSecret code : String)
    (tokenReply : HttpResult LinuxDoOAuthResponse)
    (userReply : HttpResult LinuxDoUser)
    (h : code = "" ∨ clientId = "" ∨ clientSecret = "") :
    (∃ e, (getLinuxDoUserInfoByCode clientId clientSecret code tokenReply userReply).1
      = Except.error e)
    ∧ (getLinuxDoUserInfoByCode clientId clientSecret code tokenReply userReply).2
      = [] := by
  by_cases hc : code = ""
  · refine ⟨⟨"无效的参数", ?_⟩, ?_⟩ <;> simp [getLinuxDoUserInfoByCode, hc]
  · have hcs : clientId = "" ∨ clientSecret = "" := h.resolve_left hc
    refine ⟨⟨"LinuxDo OAuth 配置不完整", ?_⟩, ?_⟩ <;>
      simp [getLinuxDoUserInfoByCode, hc, hcs]

/-- C9 witness: an empty client secret errors with no outbound call, even with
a successful network standing by. -/
theorem getLinuxDoUserInfoByCode_failfast_witness :
    (∃ e, (getLinuxDoUserInfoByCode "client-id" "" "abc"
      (HttpResult.reply 200 (some { accessToken := "tok", tokenType := "Bearer",
                                    scope := "user" }))
      (HttpResult.reply 200 (some { id := 7, username := "u", name := "n",
                                    avatarTemplate := "", active := true,
                                    trustLevel := 2 }))).1 = Except.error e)
    ∧ (getLinuxDoUserInfoByCode "client-id" "" "abc"
      (HttpResult.reply 200 (some { accessToken := "tok", tokenType := "Bearer",
                                    scope := "user" }))
      (HttpResult.reply 200 (some { id := 7, username := "u", name := "n",
                                    avatarTemplate := "", active := true,
                                    trustLevel := 2 }))).2 = [] :=
  getLinuxDoUserInfoByCode_failfast "client-id" "" "abc" _ _
    (Or.inr (Or.inr rfl))

/-- C10: whenever the `state` query parameter is empty, or the session carries
no `oauth_state`, or the two differ, `LinuxDoOAuth` replies HTTP 403 with
`success = false` and performs no collaborator call at all — no token exchange,
no user lookup, no user creation, no login. -/
theorem LinuxDoOAuth_state_guard (env : OAuthEnv)
    (h : env.queryState = "" ∨ env.sessionOauthState = none
      ∨ env.sessionOauthState ≠ some env.queryState) :
    LinuxDoOAuth env
      = (OAuthOutcome.json 403 false "state is empty or not same", []) := by
  unfold LinuxDoOAuth
  by_cases hq : env.queryState = ""
  · simp [hq]
  · cases hs : env.sessionOauthState with
    | none => simp [hq]
    | some savedState =>
      have hne : env.queryState ≠ savedState := by
        rcases h with h | h | h
        · exact absurd h hq
        · rw [hs] at h
          cases h
        · intro he
          rw [hs, he] at h
          exact h rfl
      simp [hq, hne]

/-- C10 witness: a state mismatch at a fully concrete environment yields the
403 reply with an empty effect trace. -/
theorem LinuxDoOAuth_state_guard_witness :
    LinuxDoOAuth
      { queryState := "abc"
        queryCode := "code"
        queryAff := ""
        sessionOauthState := some "xyz"
        sessionUsername := none
        linuxDoOAuthEnabled := true
        registerEnabled := true
        clientId := "id"
        clientSecret := "secret"
        tokenReply := HttpResult.reply 200 (some ⟨"tok", "Bearer", "user"⟩)
        userReply := HttpResult.reply 200 (some ⟨7, "u", "n", "", true, 2⟩)
        linuxDoIdTaken := false
        findUserReply := Except.error "not found"
        affCodeUserId := 0
        insertReply := none }
      = (OAuthOutcome.json 403 false "state is empty or not same", []) :=
  LinuxDoOAuth_state_guard _ (Or.inr (Or.inr (by simp)))
